import Mathlib

/-!
Verification of the NIHO occupancy-analytics core (`src/unnamed/part_000`:
`generateTimeSlots`, `calculateHourlyOccupancy`, `generateComparisonData`,
`calculateTotalStats`, `calculateComparison`).

Modelling conventions, used throughout:

* Timestamps are milliseconds since the Unix epoch (`Nat`), the unit of
  JavaScript `Date.getTime()`.  The runtime timezone is taken to be UTC, so
  `getHours()` is `t / msPerHour % 24` and the `toISOString` date is the day
  index `t / msPerDay`.
* The JS code carries durations as floating-point minutes
  (`(end - start) / 60000`) and day totals as floating-point hours
  (`stayMinutes / 60`).  Those floats denote the exact rationals
  `ms / 60000` resp. `ms / 3600000`; we carry the numerators (exact
  millisecond counts, `Nat`) and divide only in theorem statements, so every
  definition evaluates inside the kernel.
* Statistics rounded to one decimal place (`Math.round(x * 10) / 10`) are
  carried as the integer `Math.round(x * 10)`, i.e. in tenths; the JS value
  is that integer divided by 10.
* String-keyed JS objects (`hourlyOccupancy`, `dailyStats`) are association
  lists in insertion order, exactly as JS objects enumerate their keys; the
  composite `YYYY-MM-DD-HH` key is the injective hour index `t / msPerHour`
  and the `YYYY-MM-DD` key is the day index `t / msPerDay`.
-/

/-- Milliseconds in one clock hour. -/
def msPerHour : Nat := 3600000

/-- Milliseconds in one calendar day. -/
def msPerDay : Nat := 86400000

/-- One element of the array built by `generateTimeSlots` (lines 43–50).
`duration` is kept in milliseconds: the JS field holds
`(actualEnd - current) / (1000 * 60)`, i.e. `duration / 60000` minutes. -/
structure Slot where
  date : Nat
  hour : Nat
  dateHour : Nat
  duration : Nat
  checkin : Nat
  checkout : Nat
deriving DecidableEq

/-- The exact value of the JS float stored in the slot's `duration` field
(minutes). -/
def Slot.durationMinutes (s : Slot) : ℚ := (s.duration : ℚ) / 60000

/-- `slotEnd.setHours(slotEnd.getHours() + 1, 0, 0, 0)` (line 37): the next
clock-hour boundary strictly after `t`. -/
def nextHourBoundary (t : Nat) : Nat := (t / msPerHour + 1) * msPerHour

/-- Loop body of `generateTimeSlots` (lines 35–54).  The loop advances the
cursor by at least one millisecond per iteration, so `checkout - current`
bounds the number of remaining iterations; `fuel` carries that bound to make
the recursion structural. -/
def generateTimeSlotsAux : Nat → Nat → Nat → List Slot
  | 0, _, _ => []
  | fuel + 1, current, checkout =>
    if current < checkout then
      let slotEnd := nextHourBoundary current
      let actualEnd := if checkout < slotEnd then checkout else slotEnd
      let duration := actualEnd - current
      (if 0 < duration then
        [{ date := current / msPerDay
           hour := current / msPerHour % 24
           dateHour := current / msPerHour
           duration := duration
           checkin := current
           checkout := actualEnd }]
      else []) ++ generateTimeSlotsAux fuel slotEnd checkout
    else []

/-- `generateTimeSlots(checkin, checkout)` (lines 30–57). -/
def generateTimeSlots (checkin checkout : Nat) : List Slot :=
  generateTimeSlotsAux (checkout - checkin) checkin checkout

/-- `SlotsCover l a b`: the slot list `l` decomposes the half-open interval
`[a, b)` exactly — consecutive slots are adjacent (no gaps, no overlaps),
each slot is non-empty, stays inside the clock hour of its start, and its
stored `duration` and `dateHour` fields are consistent with its endpoints. -/
def SlotsCover : List Slot → Nat → Nat → Prop
  | [], a, b => a = b
  | s :: rest, a, b =>
      s.checkin = a ∧ a < s.checkout ∧ s.checkout ≤ nextHourBoundary a ∧
      s.duration = s.checkout - a ∧ s.dateHour = a / msPerHour ∧
      SlotsCover rest s.checkout b

theorem lt_nextHourBoundary (t : Nat) : t < nextHourBoundary t := by
  simp only [nextHourBoundary, msPerHour]
  omega

theorem nextHourBoundary_le (t : Nat) : nextHourBoundary t ≤ t + msPerHour := by
  simp only [nextHourBoundary, msPerHour]
  omega

theorem generateTimeSlotsAux_nil (fuel a b : Nat) (h : ¬ a < b) :
    generateTimeSlotsAux fuel a b = [] := by
  cases fuel with
  | zero => rfl
  | succ n => simp [generateTimeSlotsAux, h]

theorem generateTimeSlotsAux_succ_pos {n a b : Nat} (h : a < b) :
    generateTimeSlotsAux (n + 1) a b =
      (if 0 < (if b < nextHourBoundary a then b else nextHourBoundary a) - a then
        [{ date := a / msPerDay, hour := a / msPerHour % 24, dateHour := a / msPerHour,
           duration := (if b < nextHourBoundary a then b else nextHourBoundary a) - a,
           checkin := a,
           checkout := (if b < nextHourBoundary a then b else nextHourBoundary a) }]
       else []) ++ generateTimeSlotsAux n (nextHourBoundary a) b := by
  simp [generateTimeSlotsAux, h]

theorem slotsCover_aux (fuel : Nat) : ∀ a b : Nat, a ≤ b → b - a ≤ fuel →
    SlotsCover (generateTimeSlotsAux fuel a b) a b := by
  induction fuel with
  | zero =>
    intro a b hab hf
    have hab' : a = b := by omega
    subst hab'
    simp [generateTimeSlotsAux, SlotsCover]
  | succ n ih =>
    intro a b hab hf
    by_cases h : a < b
    · have hlt := lt_nextHourBoundary a
      rw [generateTimeSlotsAux_succ_pos h]
      by_cases hclip : b < nextHourBoundary a
      · -- final, clipped slot: the recursive call is empty
        rw [if_pos hclip, if_pos (show 0 < b - a by omega),
          generateTimeSlotsAux_nil n _ b (by omega)]
        simp only [List.cons_append, List.nil_append]
        exact ⟨rfl, h, le_of_lt hclip, rfl, rfl, rfl⟩
      · -- full slot up to the hour boundary
        rw [if_neg hclip, if_pos (show 0 < nextHourBoundary a - a by omega)]
        simp only [List.cons_append, List.nil_append]
        exact ⟨rfl, hlt, le_refl _, rfl, rfl,
          ih (nextHourBoundary a) b (by omega) (by omega)⟩
    · have hab' : a = b := by omega
      subst hab'
      rw [generateTimeSlotsAux_nil _ _ _ h]
      simp [SlotsCover]

theorem SlotsCover.le {l : List Slot} {a b : Nat} (h : SlotsCover l a b) : a ≤ b := by
  induction l generalizing a with
  | nil => simp [SlotsCover] at h; omega
  | cons s rest ih =>
    obtain ⟨-, h2, -, -, -, h6⟩ := h
    have := ih h6
    omega

theorem SlotsCover.sum_duration {l : List Slot} {a b : Nat} (h : SlotsCover l a b) :
    (l.map Slot.duration).sum = b - a := by
  induction l generalizing a with
  | nil => simp [SlotsCover] at h; simp [h]
  | cons s rest ih =>
    obtain ⟨h1, h2, h3, h4, h5, h6⟩ := h
    have hle : s.checkout ≤ b := h6.le
    have := ih h6
    simp only [List.map_cons, List.sum_cons, this, h4]
    omega

theorem SlotsCover.mem {l : List Slot} {a b : Nat} (h : SlotsCover l a b) :
    ∀ s ∈ l, a ≤ s.checkin ∧ s.checkin < s.checkout ∧ s.checkout ≤ b ∧
      s.checkout ≤ nextHourBoundary s.checkin ∧ s.duration = s.checkout - s.checkin ∧
      s.dateHour = s.checkin / msPerHour := by
  induction l generalizing a with
  | nil => intro s hs; simp at hs
  | cons t rest ih =>
    intro s hs
    obtain ⟨h1, h2, h3, h4, h5, h6⟩ := h
    rcases List.mem_cons.mp hs with rfl | hs'
    · subst h1
      exact ⟨le_refl _, h2, h6.le, h3, h4, h5⟩
    · have := ih h6 s hs'
      have hco : t.checkout ≤ b := h6.le
      subst h1
      exact ⟨by omega, this.2.1, this.2.2.1, this.2.2.2.1, this.2.2.2.2.1,
        this.2.2.2.2.2⟩

theorem SlotsCover.pairwise {l : List Slot} {a b : Nat} (h : SlotsCover l a b) :
    l.Pairwise (fun s t => s.checkin ≤ t.checkin) := by
  induction l generalizing a with
  | nil => exact List.Pairwise.nil
  | cons s rest ih =>
    obtain ⟨h1, h2, h3, h4, h5, h6⟩ := h
    refine List.Pairwise.cons ?_ (ih h6)
    intro t ht
    have := h6.mem t ht
    subst h1
    omega

theorem generateTimeSlots_cover (a b : Nat) (h : a ≤ b) :
    SlotsCover (generateTimeSlots a b) a b :=
  slotsCover_aux (b - a) a b h (le_refl _)

theorem natSumMapDiv (l : List Nat) (c : ℚ) :
    (l.map (fun d : Nat => (d : ℚ) / c)).sum = (l.map (fun d : Nat => (d : ℚ))).sum / c := by
  induction l with
  | nil => simp
  | cons x xs ih => simp [ih, add_div]

/-- C1: for `checkout > checkin`, `generateTimeSlots` emits a finite ordered
sequence of slots that partitions `[checkin, checkout)` exactly once — no
gaps, no overlaps — and the slot durations (the JS float minute values) sum
to `(checkout − checkin)` in minutes. -/
theorem generateTimeSlots_partitions (a b : Nat) (h : a < b) :
    SlotsCover (generateTimeSlots a b) a b ∧
    ((generateTimeSlots a b).map Slot.durationMinutes).sum =
      ((b : ℚ) - (a : ℚ)) / 60000 := by
  have hc := generateTimeSlots_cover a b h.le
  refine ⟨hc, ?_⟩
  have hsum := hc.sum_duration
  have hcast : ((b - a : Nat) : ℚ) = (b : ℚ) - (a : ℚ) := by
    push_cast [Nat.cast_sub h.le]
    ring
  have h1 : (generateTimeSlots a b).map Slot.durationMinutes =
      ((generateTimeSlots a b).map Slot.duration).map (fun d : Nat => (d : ℚ) / 60000) := by
    rw [List.map_map]
    rfl
  rw [h1, natSumMapDiv, ← Nat.cast_list_sum, hsum, hcast]

/-- Witness for C1 at `checkin = 1000`, `checkout = 7260000`
(1970-01-01 00:00:01 to 02:01:00 UTC). -/
theorem generateTimeSlots_partitions_witness :
    SlotsCover (generateTimeSlots 1000 7260000) 1000 7260000 ∧
    ((generateTimeSlots 1000 7260000).map Slot.durationMinutes).sum =
      ((7260000 : ℚ) - (1000 : ℚ)) / 60000 :=
  generateTimeSlots_partitions 1000 7260000 (by decide)

/-- C9: every slot emitted by `generateTimeSlots` lies within a single clock
hour, has duration strictly positive and at most 60 minutes, and slot start
timestamps are non-decreasing across the emitted sequence. -/
theorem generateTimeSlots_slot_bounds (a b : Nat) :
    (∀ s ∈ generateTimeSlots a b,
        0 < s.durationMinutes ∧ s.durationMinutes ≤ 60 ∧
        s.checkin < s.checkout ∧
        s.checkout ≤ (s.checkin / msPerHour + 1) * msPerHour) ∧
    (generateTimeSlots a b).Pairwise (fun s t => s.checkin ≤ t.checkin) := by
  by_cases hab : a ≤ b
  · have hc := generateTimeSlots_cover a b hab
    refine ⟨?_, hc.pairwise⟩
    intro s hs
    obtain ⟨-, h2, h3, h4, h5, -⟩ := hc.mem s hs
    have hub : s.checkout ≤ s.checkin + msPerHour :=
      le_trans h4 (nextHourBoundary_le s.checkin)
    have hub' : s.checkout ≤ s.checkin + 3600000 := by
      have : msPerHour = 3600000 := rfl
      omega
    have hdur : 0 < s.duration ∧ s.duration ≤ 3600000 := by
      constructor <;> omega
    refine ⟨?_, ?_, h2, h4⟩
    · have hq : (0 : ℚ) < (s.duration : ℚ) := by exact_mod_cast hdur.1
      exact div_pos hq (by norm_num)
    · unfold Slot.durationMinutes
      rw [div_le_iff₀ (by norm_num)]
      have : (s.duration : ℚ) ≤ 3600000 := by exact_mod_cast hdur.2
      linarith
  · have : generateTimeSlots a b = [] :=
      generateTimeSlotsAux_nil _ _ _ (by omega)
    rw [this]
    exact ⟨by intro s hs; simp at hs, List.Pairwise.nil⟩

/-- Witness for C9: the first slot of the visit `[1000, 7260000)` satisfies
the bounds. -/
theorem generateTimeSlots_slot_bounds_witness :
    ({ date := 0, hour := 0, dateHour := 0, duration := 3599000,
       checkin := 1000, checkout := 3600000 } : Slot) ∈
        generateTimeSlots 1000 7260000 ∧
    (0 < ({ date := 0, hour := 0, dateHour := 0, duration := 3599000,
            checkin := 1000, checkout := 3600000 } : Slot).durationMinutes ∧
     ({ date := 0, hour := 0, dateHour := 0, duration := 3599000,
        checkin := 1000, checkout := 3600000 } : Slot).durationMinutes ≤ 60 ∧
     (1000 : Nat) < 3600000 ∧
     (3600000 : Nat) ≤ (1000 / msPerHour + 1) * msPerHour) :=
  ⟨by decide,
   generateTimeSlots_slot_bounds 1000 7260000 |>.1 _ (by decide)⟩

/-- One CSV record as consumed by `calculateHourlyOccupancy` after the field
parses at lines 73–76: `name` is `record['顧客名']`, `checkin` the parsed
check-in timestamp (epoch ms), `checkoutField` the parsed checkout timestamp
when that CSV column is non-empty and `none` otherwise, and `stayMs` the
parsed stay time in milliseconds (the JS float `stayMinutes` equals
`stayMs / 60000`, so `stayMinutes > 0` iff `stayMs ≠ 0`). -/
structure Record where
  name : String
  checkin : Nat
  checkoutField : Option Nat
  stayMs : Nat
deriving DecidableEq

/-- One value of the `hourlyOccupancy` object (lines 99–103).  `totalMinutes`
is kept in milliseconds (the JS float equals `totalMinutes / 60000`) and each
`users` entry pairs a customer name with a slot duration in milliseconds. -/
structure Bucket where
  count : Nat
  totalMinutes : Nat
  users : List (String × Nat)
deriving DecidableEq

/-- One value of the `dailyStats` object before the final Set→size conversion
(lines 116–120).  `totalHours` is kept in milliseconds (the JS float equals
`totalHours / 3600000`). -/
structure DayStat where
  totalHours : Nat
  totalSessions : Nat
  uniqueUsers : Finset String
deriving DecidableEq

/-- A `dailyStats` value after lines 132–134 replaced the Set by its size. -/
structure DayStatOut where
  totalHours : Nat
  totalSessions : Nat
  uniqueUsers : Nat
deriving DecidableEq

/-- An element of `allTimeSlots` (lines 90–94): a slot spread together with
the customer name and the record's original stay time. -/
structure NamedSlot where
  slot : Slot
  customerName : String
  originalStayMs : Nat
deriving DecidableEq

/-- JS-object update `if (!m[k]) m[k] = d; … mutate m[k] …`: insertion-order
association list, appending a fresh key at the end and updating an existing
key in place. -/
def upsert {β : Type} (d : β) (f : β → β) (k : Nat) : List (Nat × β) → List (Nat × β)
  | [] => [(k, f d)]
  | (k', v) :: rest =>
      if k' = k then (k', f v) :: rest else (k', v) :: upsert d f k rest

/-- The bucket mutation of lines 105–110, parametrized by one
`(bucketKey, customerName, durationMs)` entry: increment `count`, add the
duration to `totalMinutes`, push `(name, duration)` onto `users`. -/
def bucketUpd (b : Bucket) (e : Nat × String × Nat) : Bucket :=
  { count := b.count + 1
    totalMinutes := b.totalMinutes + e.2.2
    users := b.users ++ [(e.2.1, e.2.2)] }

/-- Lines 97–111: account one slot to its hour bucket. -/
def addSlot (name : String) (m : List (Nat × Bucket)) (s : Slot) : List (Nat × Bucket) :=
  upsert { count := 0, totalMinutes := 0, users := [] }
    (fun b => bucketUpd b (s.dateHour, name, s.duration))
    s.dateHour m

/-- The day-stat mutation of lines 122–124: add the stay to the day's total,
count the session, add the customer to the day's unique-user Set. -/
def dayUpd (s : DayStat) (r : Record) : DayStat :=
  { totalHours := s.totalHours + r.stayMs
    totalSessions := s.totalSessions + 1
    uniqueUsers := insert r.name s.uniqueUsers }

/-- Lines 113–124: account one valid record to the day stats of its check-in
date. -/
def addDaily (r : Record) (m : List (Nat × DayStat)) : List (Nat × DayStat) :=
  upsert { totalHours := 0, totalSessions := 0, uniqueUsers := ∅ }
    (fun s => dayUpd s r) (r.checkin / msPerDay) m

/-- The mutable accumulators of one `calculateHourlyOccupancy` pass. -/
structure OccState where
  hourlyOccupancy : List (Nat × Bucket)
  dailyStats : List (Nat × DayStat)
  allTimeSlots : List NamedSlot
deriving DecidableEq

/-- One iteration of the `records.forEach` body (lines 71–129), including the
source's exceptional control flow: `checkout` is declared `const` (line 74),
so when the CSV has no checkout timestamp and `stayMinutes > 0` the
reassignment `checkout = new Date(...)` at line 80 throws a `TypeError` that
the surrounding `catch` (line 126) swallows, and the record contributes
nothing; when the checkout is absent and `stayMinutes ≤ 0`, or present with
`stayMinutes ≤ 0`, the guard at line 83 skips the record. -/
def processRecord (st : OccState) (r : Record) : OccState :=
  match r.checkoutField with
  | none => st
  | some checkout =>
    if r.stayMs = 0 then st
    else
      { hourlyOccupancy :=
          (generateTimeSlots r.checkin checkout).foldl (addSlot r.name) st.hourlyOccupancy
        dailyStats := addDaily r st.dailyStats
        allTimeSlots := st.allTimeSlots ++
          (generateTimeSlots r.checkin checkout).map
            (fun s => { slot := s, customerName := r.name, originalStayMs := r.stayMs }) }

/-- Result of `calculateHourlyOccupancy` (lines 138–142). -/
structure OccResult where
  hourlyOccupancy : List (Nat × Bucket)
  dailyStats : List (Nat × DayStatOut)
  allTimeSlots : List NamedSlot
deriving DecidableEq

/-- `calculateHourlyOccupancy(records)` (lines 64–143): fold the per-record
accumulation over the records in input order, then replace each day's
`uniqueUsers` Set by its size (lines 132–134). -/
def calculateHourlyOccupancy (records : List Record) : OccResult :=
  { hourlyOccupancy :=
      (records.foldl processRecord
        { hourlyOccupancy := [], dailyStats := [], allTimeSlots := [] }).hourlyOccupancy
    dailyStats :=
      (records.foldl processRecord
        { hourlyOccupancy := [], dailyStats := [], allTimeSlots := [] }).dailyStats.map
        (fun p => (p.1, { totalHours := p.2.totalHours
                          totalSessions := p.2.totalSessions
                          uniqueUsers := p.2.uniqueUsers.card }))
    allTimeSlots :=
      (records.foldl processRecord
        { hourlyOccupancy := [], dailyStats := [], allTimeSlots := [] }).allTimeSlots }

/-- C2 (code bug): a record whose checkout timestamp is absent but whose stay
time is positive (here 90 minutes) is dropped by `calculateHourlyOccupancy` —
the `const` reassignment at line 80 throws, the `catch` swallows it, and the
record produces no slots and no daily statistics. -/
theorem missingCheckout_record_dropped :
    calculateHourlyOccupancy
        [{ name := "a", checkin := 1000, checkoutField := none, stayMs := 5400000 }] =
      { hourlyOccupancy := [], dailyStats := [], allTimeSlots := [] } := rfl

/-- Invariant of the `hourlyOccupancy` accumulator: every materialized bucket
has `count` equal to the length of its `users` list, `totalMinutes` equal to
the sum of the durations recorded there, and at least one occupant. -/
def BucketInv (m : List (Nat × Bucket)) : Prop :=
  ∀ kb ∈ m, kb.2.count = kb.2.users.length ∧
    kb.2.totalMinutes = (kb.2.users.map (fun u => u.2)).sum ∧ 1 ≤ kb.2.count

theorem mem_upsert {β : Type} (d : β) (f : β → β) (k : Nat) :
    ∀ (m : List (Nat × β)), ∀ x ∈ upsert d f k m,
      (∃ y, x = (k, f y) ∧ (y = d ∨ (k, y) ∈ m)) ∨ x ∈ m := by
  intro m
  induction m with
  | nil =>
    intro x hx
    simp only [upsert, List.mem_singleton] at hx
    exact Or.inl ⟨d, hx, Or.inl rfl⟩
  | cons p rest ih =>
    intro x hx
    obtain ⟨k', v⟩ := p
    by_cases hk : k' = k
    · subst hk
      rw [show upsert d f k' ((k', v) :: rest) = (k', f v) :: rest from by
        simp [upsert]] at hx
      rcases List.mem_cons.mp hx with he | hx2
      · exact Or.inl ⟨v, he, Or.inr (List.mem_cons_self _ _)⟩
      · exact Or.inr (List.mem_cons_of_mem _ hx2)
    · rw [show upsert d f k ((k', v) :: rest) = (k', v) :: upsert d f k rest from by
        simp [upsert, hk]] at hx
      rcases List.mem_cons.mp hx with he | hx2
      · exact Or.inr (by rw [he]; exact List.mem_cons_self _ _)
      · rcases ih x hx2 with ⟨y, hy1, hy2⟩ | hmem
        · refine Or.inl ⟨y, hy1, ?_⟩
          rcases hy2 with h' | h'
          · exact Or.inl h'
          · exact Or.inr (List.mem_cons_of_mem _ h')
        · exact Or.inr (List.mem_cons_of_mem _ hmem)

theorem bucketInv_addSlot (name : String) (m : List (Nat × Bucket)) (s : Slot)
    (h : BucketInv m) : BucketInv (addSlot name m s) := by
  intro kb hkb
  rcases mem_upsert _ _ _ m kb hkb with ⟨y, rfl, hy⟩ | hmem
  · rcases hy with rfl | hy
    · refine ⟨by simp [bucketUpd], by simp [bucketUpd], by simp [bucketUpd]⟩
    · obtain ⟨h1, h2, h3⟩ := h _ hy
      simp only at h1 h2 h3
      exact ⟨by simp [bucketUpd, h1], by simp [bucketUpd, h2], by simp [bucketUpd]⟩
  · exact h _ hmem

theorem bucketInv_foldl_addSlot (name : String) (slots : List Slot) :
    ∀ m, BucketInv m → BucketInv (slots.foldl (addSlot name) m) := by
  induction slots with
  | nil => intro m h; exact h
  | cons s rest ih => intro m h; exact ih _ (bucketInv_addSlot name m s h)

theorem bucketInv_processRecord (r : Record) (st : OccState)
    (h : BucketInv st.hourlyOccupancy) :
    BucketInv (processRecord st r).hourlyOccupancy := by
  rcases hr : r.checkoutField with _ | co
  · simpa [processRecord, hr] using h
  · by_cases hs : r.stayMs = 0
    · simpa [processRecord, hr, hs] using h
    · simpa [processRecord, hr, hs] using
        bucketInv_foldl_addSlot r.name _ st.hourlyOccupancy h

theorem bucketInv_foldl_records (records : List Record) :
    ∀ st, BucketInv st.hourlyOccupancy →
      BucketInv ((records.foldl processRecord st).hourlyOccupancy) := by
  induction records with
  | nil => intro st h; exact h
  | cons r rest ih => intro st h; exact ih _ (bucketInv_processRecord r st h)

/-- C10: the per-slot accumulation step of `calculateHourlyOccupancy`
preserves the bucket invariant — `count` equals the length of the `users`
list, `totalMinutes` equals the sum of the durations recorded there, and
`count ≥ 1` (counts and totals are never decremented) — and consequently the
invariant holds of every materialized bucket after processing any record
list. -/
theorem calculateHourlyOccupancy_bucket_invariant :
    (∀ (name : String) (m : List (Nat × Bucket)) (s : Slot),
        BucketInv m → BucketInv (addSlot name m s)) ∧
    ∀ records : List Record,
      BucketInv (calculateHourlyOccupancy records).hourlyOccupancy := by
  refine ⟨bucketInv_addSlot, ?_⟩
  intro records
  exact bucketInv_foldl_records records _ (fun kb hkb => absurd hkb (List.not_mem_nil kb))

/-- Witness for C10: one accumulation step on the empty accumulator. -/
theorem calculateHourlyOccupancy_bucket_invariant_witness :
    BucketInv (addSlot "a" []
      { date := 0, hour := 0, dateHour := 0, duration := 600000,
        checkin := 0, checkout := 600000 }) :=
  calculateHourlyOccupancy_bucket_invariant.1 "a" []
    { date := 0, hour := 0, dateHour := 0, duration := 600000,
      checkin := 0, checkout := 600000 }
    (fun kb hkb => absurd hkb (List.not_mem_nil kb))

/-- `Math.round(a / b)` in exact integer arithmetic: `⌊a/b + 1/2⌋`, written
with a single Euclidean division so the kernel can evaluate it.  It agrees
with the JS float computation whenever `b > 0`. -/
def mathRoundDiv (a b : ℤ) : ℤ := (2 * a + b) / (2 * b)

/-- The tenths integer `Math.round(x * 10)` underlying the source's
round-to-one-decimal `Math.round(x * 10) / 10`; the JS value is this divided
by 10. -/
def jsRound1 (q : ℚ) : ℤ := ⌊q * 10 + 1 / 2⌋

theorem mathRoundDiv_eq_floor (a : ℤ) (b : ℕ) (hb : 0 < b) :
    mathRoundDiv a b = ⌊(a : ℚ) / (b : ℚ) + 1 / 2⌋ := by
  have hb' : (b : ℚ) ≠ 0 := by
    exact_mod_cast hb.ne'
  have h1 : (a : ℚ) / (b : ℚ) + 1 / 2 = (((2 * a + b : ℤ) : ℚ)) / (((2 * b : ℕ) : ℚ)) := by
    push_cast
    field_simp
    ring
  rw [h1, Rat.floor_intCast_div_natCast, mathRoundDiv]
  push_cast
  ring_nf

/-- Result record of `calculateTotalStats` (lines 246–254).  `totalHours`,
`manHours` and `averageOccupancy` are rounded to one decimal place in the
source (`Math.round(x * 10) / 10`) and carried here as tenths integers: the
JS float equals the field divided by 10. -/
structure TotalStats where
  totalHours : ℤ
  manHours : ℤ
  uniqueUsers : Nat
  totalSessions : Nat
  peakOccupancy : Nat
  averageOccupancy : ℤ
  activeDays : Nat
deriving DecidableEq

/-- `calculateTotalStats(monthData, records)` (lines 223–255).
`totalHours` sums `dailyStats` day totals (exact hours `ms / 3600000`, so its
tenths are `Math.round(10 * Σms / 3600000)`); `manHours` and `totalSessions`
are the record count (lines 231, 237); `uniqueUsers` is the size of the Set
of customer names over all records (line 234); `peakOccupancy` is
`Math.max(...counts, 0)` (line 240); `averageOccupancy` is the bucket-count
mean over materialized buckets, or 0 when none exist (lines 243–244). -/
def calculateTotalStats (monthData : OccResult) (records : List Record) : TotalStats :=
  { totalHours :=
      mathRoundDiv (10 * ((monthData.dailyStats.map (fun p => p.2.totalHours)).sum : ℤ)) 3600000
    manHours := mathRoundDiv (10 * (records.length : ℤ)) 1
    uniqueUsers := (records.map (fun r => r.name)).toFinset.card
    totalSessions := records.length
    peakOccupancy := (monthData.hourlyOccupancy.map (fun p => p.2.count)).foldr max 0
    averageOccupancy :=
      if 0 < monthData.hourlyOccupancy.length then
        mathRoundDiv (10 * ((monthData.hourlyOccupancy.map (fun p => p.2.count)).sum : ℤ))
          (monthData.hourlyOccupancy.length)
      else 0
    activeDays := monthData.dailyStats.length }

/-- C6: on the empty record set — hence empty buckets and daily stats —
`calculateTotalStats` never raises and every metric is 0. -/
theorem calculateTotalStats_empty :
    calculateTotalStats (calculateHourlyOccupancy []) [] =
      { totalHours := 0, manHours := 0, uniqueUsers := 0, totalSessions := 0,
        peakOccupancy := 0, averageOccupancy := 0, activeDays := 0 } := by
  decide

/-- C7: for every record list, whenever at least one bucket is materialized
the reported `averageOccupancy` (a tenths integer, the JS value times 10)
equals the arithmetic mean of `Bucket.count` over exactly the materialized
buckets, rounded to one decimal place; with no buckets it is 0; and every
materialized bucket has `count ≥ 1`, so hours with zero occupants never
contribute to the average. -/
theorem calculateTotalStats_averageOccupancy (records : List Record) :
    ((calculateHourlyOccupancy records).hourlyOccupancy ≠ [] →
      (calculateTotalStats (calculateHourlyOccupancy records) records).averageOccupancy =
        jsRound1
          (((calculateHourlyOccupancy records).hourlyOccupancy.map
              (fun p => (p.2.count : ℚ))).sum /
            ((calculateHourlyOccupancy records).hourlyOccupancy.length : ℚ))) ∧
    ((calculateHourlyOccupancy records).hourlyOccupancy = [] →
      (calculateTotalStats (calculateHourlyOccupancy records) records).averageOccupancy = 0) ∧
    ∀ kb ∈ (calculateHourlyOccupancy records).hourlyOccupancy, 1 ≤ kb.2.count := by
  refine ⟨?_, ?_, ?_⟩
  · intro hne
    have hlen : 0 < (calculateHourlyOccupancy records).hourlyOccupancy.length :=
      List.length_pos.mpr hne
    show (if 0 < (calculateHourlyOccupancy records).hourlyOccupancy.length then
        mathRoundDiv
          (10 * (((calculateHourlyOccupancy records).hourlyOccupancy.map
            (fun p => p.2.count)).sum : ℤ))
          ((calculateHourlyOccupancy records).hourlyOccupancy.length)
      else 0) = _
    rw [if_pos hlen,
      mathRoundDiv_eq_floor _ _ hlen]
    unfold jsRound1
    congr 1
    push_cast
    rw [List.map_map]
    simp only [Function.comp_def, Int.cast_natCast]
    ring
  · intro h0
    show (if 0 < (calculateHourlyOccupancy records).hourlyOccupancy.length then
        mathRoundDiv
          (10 * (((calculateHourlyOccupancy records).hourlyOccupancy.map
            (fun p => p.2.count)).sum : ℤ))
          ((calculateHourlyOccupancy records).hourlyOccupancy.length)
      else 0) = 0
    rw [h0]
    rfl
  · intro kb hkb
    exact ((bucketInv_foldl_records records _
      (fun kb hkb => absurd hkb (List.not_mem_nil kb))) kb hkb).2.2

/-- Witness for C7 at a single ten-minute visit starting at the epoch. -/
theorem calculateTotalStats_averageOccupancy_witness :
    (calculateTotalStats
        (calculateHourlyOccupancy
          [{ name := "a", checkin := 0, checkoutField := some 600000, stayMs := 600000 }])
        [{ name := "a", checkin := 0, checkoutField := some 600000, stayMs := 600000 }]).averageOccupancy =
      jsRound1
        (((calculateHourlyOccupancy
            [{ name := "a", checkin := 0, checkoutField := some 600000, stayMs := 600000 }]).hourlyOccupancy.map
            (fun p => (p.2.count : ℚ))).sum /
          ((calculateHourlyOccupancy
            [{ name := "a", checkin := 0, checkoutField := some 600000, stayMs := 600000 }]).hourlyOccupancy.length : ℚ)) :=
  (calculateTotalStats_averageOccupancy
    [{ name := "a", checkin := 0, checkoutField := some 600000, stayMs := 600000 }]).1
    (by decide)

/-- JS printing of the one-decimal number `n / 10` (`n` in tenths): integral
values print with no decimal point, others with one fractional digit;
`String(-0)` is `"0"`, which matches `n = 0` here. -/
def tenthsToString (n : ℤ) : String :=
  if n < 0 then
    "-" ++ (toString (n.natAbs / 10) ++
      (if n.natAbs % 10 = 0 then "" else "." ++ toString (n.natAbs % 10)))
  else
    toString (n.natAbs / 10) ++
      (if n.natAbs % 10 = 0 then "" else "." ++ toString (n.natAbs % 10))

/-- `calculateChange(curr, prev)` (lines 264–268), with the metric values
carried in tenths (which leaves `(curr - prev) / prev` unchanged).
`prev === 0` iff its tenths are 0; `Math.round(change * 10)` with
`change = (curr - prev) / prev * 100` is `mathRoundDiv (1000 * (curr - prev))
prev`; and `change >= 0` iff `(curr - prev) * prev ≥ 0` given `prev ≠ 0`. -/
def calculateChange (curr prev : ℤ) : String :=
  if prev = 0 then (if 0 < curr then "+∞%" else "0%")
  else
    (if 0 ≤ (curr - prev) * prev then "+" else "") ++
      tenthsToString (mathRoundDiv (1000 * (curr - prev)) prev) ++ "%"

/-- `calculateDifference(curr, prev)` (lines 270–273). -/
def calculateDifference (curr prev : ℤ) : String :=
  (if 0 ≤ curr - prev then "+" else "") ++ toString (curr - prev)

/-- Result of `calculateComparison` (lines 275–282). -/
structure Comparison where
  totalHoursChange : String
  manHoursChange : String
  uniqueUsersChange : String
  totalSessionsChange : String
  peakOccupancyChange : String
  averageOccupancyChange : String
deriving DecidableEq

/-- `calculateComparison(current, previous)` (lines 263–283). -/
def calculateComparison (current previous : TotalStats) : Comparison :=
  { totalHoursChange := calculateChange current.totalHours previous.totalHours
    manHoursChange := calculateChange current.manHours previous.manHours
    uniqueUsersChange :=
      calculateDifference (current.uniqueUsers : ℤ) (previous.uniqueUsers : ℤ)
    totalSessionsChange :=
      calculateDifference (current.totalSessions : ℤ) (previous.totalSessions : ℤ)
    peakOccupancyChange :=
      calculateDifference (current.peakOccupancy : ℤ) (previous.peakOccupancy : ℤ)
    averageOccupancyChange :=
      calculateChange current.averageOccupancy previous.averageOccupancy }

/-- Percentage-delta formatting exactly as the specification words it, on the
actual metric values: `(curr - prev) / prev * 100` rounded to 0.1, printed
with an explicit leading sign when the change is non-negative; special-cased
to the literal `"+∞%"` when `prev = 0` and `curr > 0`, and to `"0%"` when
both are 0. -/
def specChangeString (curr prev : ℚ) : String :=
  if prev = 0 ∧ 0 < curr then "+∞%"
  else if prev = 0 ∧ curr = 0 then "0%"
  else
    (if 0 ≤ (curr - prev) / prev * 100 then "+" else "") ++
      tenthsToString (jsRound1 ((curr - prev) / prev * 100)) ++ "%"

theorem mathRoundDiv_eq_floor_int (x y : ℤ) (hy : 0 < y) :
    mathRoundDiv x y = ⌊(x : ℚ) / (y : ℚ) + 1 / 2⌋ := by
  have hyy : ((y.toNat : ℕ) : ℤ) = y := Int.toNat_of_nonneg hy.le
  have hyq : ((y.toNat : ℕ) : ℚ) = (y : ℚ) := by
    exact_mod_cast congrArg (fun z : ℤ => (z : ℚ)) hyy
  calc mathRoundDiv x y = mathRoundDiv x ((y.toNat : ℕ) : ℤ) := by rw [hyy]
    _ = ⌊(x : ℚ) / ((y.toNat : ℕ) : ℚ) + 1 / 2⌋ :=
        mathRoundDiv_eq_floor x y.toNat (by omega)
    _ = ⌊(x : ℚ) / (y : ℚ) + 1 / 2⌋ := by rw [hyq]

theorem calculateChange_eq_spec (a b : ℤ) (ha : 0 ≤ a) (hb : 0 ≤ b) :
    calculateChange a b = specChangeString ((a : ℚ) / 10) ((b : ℚ) / 10) := by
  by_cases hb0 : b = 0
  · subst hb0
    by_cases ha0 : 0 < a
    · have haq : (0 : ℚ) < (a : ℚ) / 10 := by
        have h' : (0 : ℚ) < (a : ℚ) := by exact_mod_cast ha0
        positivity
      have e1 : calculateChange a 0 = "+∞%" := by
        rw [calculateChange, if_pos rfl, if_pos ha0]
      have e2 : specChangeString ((a : ℚ) / 10) (((0 : ℤ) : ℚ) / 10) = "+∞%" := by
        rw [specChangeString,
          if_pos (show ((0 : ℤ) : ℚ) / 10 = 0 ∧ 0 < (a : ℚ) / 10 from ⟨by norm_num, haq⟩)]
      rw [e1, e2]
    · have ha0' : a = 0 := by omega
      subst ha0'
      have e1 : calculateChange 0 0 = "0%" := by
        rw [calculateChange, if_pos rfl, if_neg (show ¬ (0 : ℤ) < 0 by omega)]
      have e2 : specChangeString (((0 : ℤ) : ℚ) / 10) (((0 : ℤ) : ℚ) / 10) = "0%" := by
        rw [specChangeString,
          if_neg (show ¬ (((0 : ℤ) : ℚ) / 10 = 0 ∧ 0 < ((0 : ℤ) : ℚ) / 10) from by norm_num),
          if_pos (show ((0 : ℤ) : ℚ) / 10 = 0 ∧ ((0 : ℤ) : ℚ) / 10 = 0 from by norm_num)]
      rw [e1, e2]
  · have hbpos : 0 < b := by omega
    have hbq : (0 : ℚ) < (b : ℚ) := by exact_mod_cast hbpos
    have hbq10 : ((b : ℚ) / 10) ≠ 0 := by positivity
    have hq : ((a : ℚ) / 10 - (b : ℚ) / 10) / ((b : ℚ) / 10) * 100 =
        ((a : ℚ) - (b : ℚ)) * (100 / (b : ℚ)) := by
      field_simp
    have hsign : (0 ≤ (a - b) * b) ↔
        (0 ≤ ((a : ℚ) / 10 - (b : ℚ) / 10) / ((b : ℚ) / 10) * 100) := by
      rw [hq, mul_nonneg_iff_of_pos_right (show (0 : ℚ) < 100 / (b : ℚ) by positivity),
        mul_nonneg_iff_of_pos_right hbpos]
      constructor
      · intro h
        have h' : (0 : ℚ) ≤ ((a - b : ℤ) : ℚ) := by exact_mod_cast h
        push_cast at h'
        linarith
      · intro h
        have h' : (0 : ℚ) ≤ ((a - b : ℤ) : ℚ) := by push_cast; linarith
        exact_mod_cast h'
    have hround : mathRoundDiv (1000 * (a - b)) b =
        jsRound1 (((a : ℚ) / 10 - (b : ℚ) / 10) / ((b : ℚ) / 10) * 100) := by
      rw [mathRoundDiv_eq_floor_int _ _ hbpos, jsRound1, hq]
      congr 1
      push_cast
      field_simp
      ring
    have hif : (if 0 ≤ (a - b) * b then "+" else "") =
        (if 0 ≤ ((a : ℚ) / 10 - (b : ℚ) / 10) / ((b : ℚ) / 10) * 100 then "+" else "") :=
      if_congr hsign rfl rfl
    rw [calculateChange, if_neg hb0, specChangeString,
      if_neg (show ¬ ((b : ℚ) / 10 = 0 ∧ 0 < (a : ℚ) / 10) from fun hc => hbq10 hc.1),
      if_neg (show ¬ ((b : ℚ) / 10 = 0 ∧ (a : ℚ) / 10 = 0) from fun hc => hbq10 hc.1),
      hround, hif]

/-- C5: the three percentage-delta metrics of `calculateComparison`
(`totalHours`, `manHours`, `averageOccupancy`) each equal the spec's
formatting of `(curr - prev) / prev * 100` rounded to 0.1 with an explicit
leading sign when non-negative, `"+∞%"` exactly when `prev = 0 < curr`, and
`"0%"` when both metrics are 0; the total function never raises on
`prev = 0`.  Metric values are the tenths fields divided by 10. -/
theorem calculateComparison_percentage_deltas (c p : TotalStats)
    (h1 : 0 ≤ c.totalHours) (h2 : 0 ≤ p.totalHours)
    (h3 : 0 ≤ c.manHours) (h4 : 0 ≤ p.manHours)
    (h5 : 0 ≤ c.averageOccupancy) (h6 : 0 ≤ p.averageOccupancy) :
    (calculateComparison c p).totalHoursChange =
      specChangeString ((c.totalHours : ℚ) / 10) ((p.totalHours : ℚ) / 10) ∧
    (calculateComparison c p).manHoursChange =
      specChangeString ((c.manHours : ℚ) / 10) ((p.manHours : ℚ) / 10) ∧
    (calculateComparison c p).averageOccupancyChange =
      specChangeString ((c.averageOccupancy : ℚ) / 10) ((p.averageOccupancy : ℚ) / 10) :=
  ⟨calculateChange_eq_spec _ _ h1 h2, calculateChange_eq_spec _ _ h3 h4,
    calculateChange_eq_spec _ _ h5 h6⟩

/-- Witness for C5: current `(totalHours, manHours, averageOccupancy)` values
`(100, 3, 1.5)` against an all-zero reference summary, the `"+∞%"` case. -/
theorem calculateComparison_percentage_deltas_witness :
    (calculateComparison
        { totalHours := 1000, manHours := 30, uniqueUsers := 3, totalSessions := 3,
          peakOccupancy := 2, averageOccupancy := 15, activeDays := 2 }
        { totalHours := 0, manHours := 0, uniqueUsers := 0, totalSessions := 0,
          peakOccupancy := 0, averageOccupancy := 0, activeDays := 0 }).totalHoursChange =
      specChangeString ((1000 : ℚ) / 10) ((0 : ℚ) / 10) :=
  (calculateComparison_percentage_deltas
    { totalHours := 1000, manHours := 30, uniqueUsers := 3, totalSessions := 3,
      peakOccupancy := 2, averageOccupancy := 15, activeDays := 2 }
    { totalHours := 0, manHours := 0, uniqueUsers := 0, totalSessions := 0,
      peakOccupancy := 0, averageOccupancy := 0, activeDays := 0 }
    (by norm_num) (by norm_num) (by norm_num) (by norm_num) (by norm_num)
    (by norm_num)).1

/-- Proleptic-Gregorian civil date `(year, month 1–12, day 1–31)` of an epoch
day index: the `getFullYear() / getMonth() + 1 / getDate()` decomposition of a
JavaScript `Date` under UTC. -/
def civilFromDays (z : Nat) : Int × Nat × Nat :=
  let zd := z + 719468
  let era := zd / 146097
  let doe := zd % 146097
  let yoe := (doe - doe / 1460 + doe / 36524 - doe / 146096) / 365
  let doy := doe - (365 * yoe + yoe / 4 - yoe / 100)
  let mp := (5 * doy + 2) / 153
  let d := doy - (153 * mp + 2) / 5 + 1
  let m := if mp < 10 then mp + 3 else mp - 9
  ((yoe : Int) + (era : Int) * 400 + (if m ≤ 2 then 1 else 0), m, d)

/-- Epoch day index of the first day of civil month `m` (1–12) of year `y`
(the inverse direction of `civilFromDays`). -/
def monthFirstDay (y : Int) (m : Nat) : Int :=
  let yAdj : Int := if m ≤ 2 then y - 1 else y
  let era : Int := yAdj / 400
  let yoe : Int := yAdj - era * 400
  let mp : Nat := (m + 9) % 12
  let doy : Int := (153 * mp + 2) / 5
  let doe : Int := yoe * 365 + yoe / 4 - yoe / 100 + doy
  era * 146097 + doe - 719468

/-- `new Date(y, monthIndex, d, hh, mm, ss).getTime()` under UTC for
`monthIndex ∈ 0..11`; a day-of-month outside the month's range rolls over
arithmetically, exactly as the JavaScript constructor normalizes it. -/
def jsUTC (y : Int) (monthIndex : Nat) (d hh mm ss : Int) : Int :=
  (monthFirstDay y (monthIndex + 1) + (d - 1)) * (86400000 : Int) +
    hh * 3600000 + mm * 60000 + ss * 1000

/-- `(getFullYear(), getMonth() + 1, getDate())` of an epoch-ms instant. -/
def jsYMD (t : Nat) : Int × Nat × Nat := civilFromDays (t / msPerDay)

/-- Lines 157–158: `[currentMonthStart, currentMonthEnd]` in epoch ms. -/
def currentWindow (now : Nat) : Int × Int :=
  (jsUTC (jsYMD now).1 ((jsYMD now).2.1 - 1) 1 0 0 0,
   jsUTC (jsYMD now).1 ((jsYMD now).2.1 - 1) ((jsYMD now).2.2 : Int) 23 59 59)

/-- Lines 161–162: previous month, with January wrapping to December of the
previous year. -/
def previousYearMonth (now : Nat) : Int × Nat :=
  (if (jsYMD now).2.1 = 1 then (jsYMD now).1 - 1 else (jsYMD now).1,
   if (jsYMD now).2.1 = 1 then 12 else (jsYMD now).2.1 - 1)

/-- Lines 163–164: `[previousMonthStart, previousMonthEnd]` in epoch ms. -/
def previousWindow (now : Nat) : Int × Int :=
  (jsUTC (previousYearMonth now).1 ((previousYearMonth now).2 - 1) 1 0 0 0,
   jsUTC (previousYearMonth now).1 ((previousYearMonth now).2 - 1)
     ((jsYMD now).2.2 : Int) 23 59 59)

/-- The filter predicate of lines 171–179: a record belongs to a window iff
its checkin lies in `[start, end]`. -/
def inWindow (w : Int × Int) (r : Record) : Bool :=
  decide (w.1 ≤ (r.checkin : Int)) && decide ((r.checkin : Int) ≤ w.2)

/-- `String(n).padStart(2, '0')`. -/
def pad2 (n : Nat) : String := if n < 10 then "0" ++ toString n else toString n

/-- The `currentPeriod` / `previousPeriod` label strings of lines 197–198. -/
def periodLabel (y : Int) (m : Nat) (d : Nat) : String :=
  toString y ++ "-" ++ pad2 m ++ "-01 to " ++ toString y ++ "-" ++ pad2 m ++ "-" ++ pad2 d

/-- The `metadata` object of lines 195–200.  `generatedAt` is the second
internal clock read (line 196), which the embedding equates with the run
instant. -/
structure Metadata where
  generatedAt : Nat
  currentPeriod : String
  previousPeriod : String
  comparisonDays : Nat
deriving DecidableEq

/-- The `currentMonth` / `previousMonth` blocks of lines 201–212. -/
structure MonthBlock where
  period : String
  records : Nat
  data : OccResult
  totalStats : TotalStats
deriving DecidableEq

/-- The full report returned at lines 194–214. -/
structure Report where
  metadata : Metadata
  currentMonth : MonthBlock
  previousMonth : MonthBlock
  comparison : Comparison
deriving DecidableEq

/-- `generateComparisonData(records)` (lines 150–215).  The source takes only
the record set and reads the wall clock internally (`new Date()` at line 151,
and again at line 196 for `generatedAt`); the embedding makes that read
instant the explicit parameter `now`, with both reads returning the same run
instant. -/
def generateComparisonData (records : List Record) (now : Nat) : Report :=
  { metadata :=
      { generatedAt := now
        currentPeriod := periodLabel (jsYMD now).1 (jsYMD now).2.1 (jsYMD now).2.2
        previousPeriod :=
          periodLabel (previousYearMonth now).1 (previousYearMonth now).2 (jsYMD now).2.2
        comparisonDays := (jsYMD now).2.2 }
    currentMonth :=
      { period := toString (jsYMD now).1 ++ "-" ++ pad2 (jsYMD now).2.1
        records := (records.filter (inWindow (currentWindow now))).length
        data := calculateHourlyOccupancy (records.filter (inWindow (currentWindow now)))
        totalStats :=
          calculateTotalStats
            (calculateHourlyOccupancy (records.filter (inWindow (currentWindow now))))
            (records.filter (inWindow (currentWindow now))) }
    previousMonth :=
      { period := toString (previousYearMonth now).1 ++ "-" ++ pad2 (previousYearMonth now).2
        records := (records.filter (inWindow (previousWindow now))).length
        data := calculateHourlyOccupancy (records.filter (inWindow (previousWindow now)))
        totalStats :=
          calculateTotalStats
            (calculateHourlyOccupancy (records.filter (inWindow (previousWindow now))))
            (records.filter (inWindow (previousWindow now))) }
    comparison :=
      calculateComparison
        (calculateTotalStats
          (calculateHourlyOccupancy (records.filter (inWindow (currentWindow now))))
          (records.filter (inWindow (currentWindow now))))
        (calculateTotalStats
          (calculateHourlyOccupancy (records.filter (inWindow (previousWindow now))))
          (records.filter (inWindow (previousWindow now)))) }

/-- C3 (counterexample): the same single-record input run at two different
wall-clock instants (1970-02-10 and 1970-04-10) yields different comparison
reports, so the report is not a function of the record set alone — the
comparator reads wall-clock time internally rather than taking the instant as
an explicit input. -/
theorem generateComparisonData_clock_dependent :
    (generateComparisonData
        [{ name := "a", checkin := 3067200000, checkoutField := some 3069000000,
           stayMs := 1800000 }] 3456000000).comparison.totalSessionsChange ≠
    (generateComparisonData
        [{ name := "a", checkin := 3067200000, checkoutField := some 3069000000,
           stayMs := 1800000 }] 8553600000).comparison.totalSessionsChange := by
  decide

/-- C3 (amended): the comparator's windows and report are determined by the
record set together with the internally read instant: modelling that read as
the explicit parameter `now`, two runs with the same records and the same
instant produce identical reports. -/
theorem generateComparisonData_deterministic (records : List Record) (now₁ now₂ : Nat)
    (h : now₁ = now₂) :
    generateComparisonData records now₁ = generateComparisonData records now₂ := by
  rw [h]

/-- Witness for the amended C3. -/
theorem generateComparisonData_deterministic_witness :
    generateComparisonData [] 3456000000 = generateComparisonData [] 3456000000 :=
  generateComparisonData_deterministic [] 3456000000 3456000000 rfl

/-- C8 (counterexample): at the instant 1970-02-10 00:00:00 UTC, a record
checking in at 1970-02-10 12:00 — twelve hours *after* the instant — is still
counted in the current window: the window ends at 23:59:59 of the instant's
calendar day, not at the instant itself. -/
theorem currentWindow_extends_past_instant :
    (3456000000 : Nat) < 3499200000 ∧
    (generateComparisonData
        [{ name := "a", checkin := 3499200000, checkoutField := some 3501000000,
           stayMs := 1800000 }] 3456000000).currentMonth.records = 1 := by
  decide

theorem jsYMD_month_pos (t : Nat) : 1 ≤ (jsYMD t).2.1 := by
  unfold jsYMD civilFromDays
  dsimp only
  split <;> omega

theorem previousYearMonth_month_pos (t : Nat) : 1 ≤ (previousYearMonth t).2 := by
  have hm := jsYMD_month_pos t
  unfold previousYearMonth
  dsimp only
  split <;> omega

theorem inWindow_day_iff (F dI : Int) (r : Record) (hsec : r.checkin % 1000 = 0) :
    (inWindow (F * 86400000, (F + (dI - 1)) * 86400000 + 86399000) r = true) ↔
      (F ≤ (r.checkin : Int) / 86400000 ∧ (r.checkin : Int) / 86400000 ≤ F + (dI - 1)) := by
  unfold inWindow
  rw [Bool.and_eq_true, decide_eq_true_eq, decide_eq_true_eq]
  omega

theorem currentWindow_eq (now : Nat) :
    currentWindow now =
      (monthFirstDay (jsYMD now).1 (jsYMD now).2.1 * 86400000,
       (monthFirstDay (jsYMD now).1 (jsYMD now).2.1 + (((jsYMD now).2.2 : Int) - 1)) *
           86400000 + 86399000) := by
  have hm : 1 ≤ (jsYMD now).2.1 := jsYMD_month_pos now
  have h1 : (jsYMD now).2.1 - 1 + 1 = (jsYMD now).2.1 := by omega
  unfold currentWindow jsUTC
  rw [h1]
  simp only [Prod.mk.injEq]
  constructor <;> ring

theorem previousWindow_eq (now : Nat) :
    previousWindow now =
      (monthFirstDay (previousYearMonth now).1 (previousYearMonth now).2 * 86400000,
       (monthFirstDay (previousYearMonth now).1 (previousYearMonth now).2 +
           (((jsYMD now).2.2 : Int) - 1)) * 86400000 + 86399000) := by
  have hm : 1 ≤ (previousYearMonth now).2 := previousYearMonth_month_pos now
  have h1 : (previousYearMonth now).2 - 1 + 1 = (previousYearMonth now).2 := by omega
  unfold previousWindow jsUTC
  rw [h1]
  simp only [Prod.mk.injEq]
  constructor <;> ring

/-- C8 (amended): for every instant, writing `(y, m, d)` for its civil date,
a second-aligned record lies in the current window iff its checkin day index
is between the first day of month `(y, m)` and `d − 1` days after it (i.e.
the window runs from day 1 of the current month through 23:59:59 of the
instant's calendar day, not through the instant); it lies in the reference
window iff its checkin day index is between the first day of the preceding
month — month 1 wrapping to month 12 of the previous year — and `d − 1` days
after it (so when the preceding month is shorter than `d` days the window
rolls past its end rather than being clipped); and `generateComparisonData`
selects each window's records with exactly this membership test. -/
theorem generateComparisonData_window_membership (now : Nat) (r : Record)
    (hsec : r.checkin % 1000 = 0) :
    ((inWindow (currentWindow now) r = true) ↔
      (monthFirstDay (jsYMD now).1 (jsYMD now).2.1 ≤ (r.checkin : Int) / 86400000 ∧
       (r.checkin : Int) / 86400000 ≤
         monthFirstDay (jsYMD now).1 (jsYMD now).2.1 + (((jsYMD now).2.2 : Int) - 1))) ∧
    ((inWindow (previousWindow now) r = true) ↔
      (monthFirstDay (previousYearMonth now).1 (previousYearMonth now).2 ≤
         (r.checkin : Int) / 86400000 ∧
       (r.checkin : Int) / 86400000 ≤
         monthFirstDay (previousYearMonth now).1 (previousYearMonth now).2 +
           (((jsYMD now).2.2 : Int) - 1))) ∧
    (∀ records : List Record,
      (generateComparisonData records now).currentMonth.records =
          (records.filter (inWindow (currentWindow now))).length ∧
      (generateComparisonData records now).previousMonth.records =
          (records.filter (inWindow (previousWindow now))).length) := by
  refine ⟨?_, ?_, fun records => ⟨rfl, rfl⟩⟩
  · rw [currentWindow_eq]
    exact inWindow_day_iff _ _ r hsec
  · rw [previousWindow_eq]
    exact inWindow_day_iff _ _ r hsec

/-- Witness for the amended C8 at the instant 1970-02-10 00:00:00 UTC and a
record checking in on 1970-02-05 12:00. -/
theorem generateComparisonData_window_membership_witness :
    (inWindow (currentWindow 3456000000)
        { name := "a", checkin := 3067200000, checkoutField := some 3069000000,
          stayMs := 1800000 } = true) ↔
      (monthFirstDay (jsYMD 3456000000).1 (jsYMD 3456000000).2.1 ≤
         ((3067200000 : Nat) : Int) / 86400000 ∧
       ((3067200000 : Nat) : Int) / 86400000 ≤
         monthFirstDay (jsYMD 3456000000).1 (jsYMD 3456000000).2.1 +
           (((jsYMD 3456000000).2.2 : Int) - 1)) :=
  (generateComparisonData_window_membership 3456000000
    { name := "a", checkin := 3067200000, checkoutField := some 3069000000,
      stayMs := 1800000 } (by decide)).1

theorem lookup_upsert {β : Type} (d : β) (f : β → β) (k k' : Nat) :
    ∀ m : List (Nat × β),
      List.lookup k' (upsert d f k m) =
        if k' = k then some (f ((List.lookup k m).getD d)) else List.lookup k' m := by
  intro m
  induction m with
  | nil =>
    by_cases h : k' = k
    · subst h
      simp [upsert, List.lookup]
    · have hb : (k' == k) = false := beq_eq_false_iff_ne.mpr h
      simp [upsert, List.lookup, h, hb]
  | cons p rest ih =>
    obtain ⟨a, v⟩ := p
    by_cases ha : a = k
    · subst ha
      simp only [upsert, if_pos rfl]
      by_cases h' : k' = a
      · subst h'
        simp [List.lookup]
      · have hb : (k' == a) = false := beq_eq_false_iff_ne.mpr h'
        simp [List.lookup, h', hb]
    · simp only [upsert, if_neg ha]
      by_cases h' : k' = a
      · subst h'
        have hkk : ¬ k' = k := fun hh => ha hh
        simp [List.lookup, hkk]
      · have hb : (k' == a) = false := beq_eq_false_iff_ne.mpr h'
        have hb2 : (k == a) = false := beq_eq_false_iff_ne.mpr (fun hh => ha hh.symm)
        simp [List.lookup, h', hb, hb2, ih]

/-- The `(bucketKey, customerName, durationMs)` entries that one record
contributes to `hourlyOccupancy`, in emission order; records skipped by lines
74–86 contribute nothing. -/
def recordSlotEntries (r : Record) : List (Nat × String × Nat) :=
  match r.checkoutField with
  | none => []
  | some checkout =>
      if r.stayMs = 0 then []
      else (generateTimeSlots r.checkin checkout).map
        (fun s => (s.dateHour, r.name, s.duration))

/-- All bucket entries of a record list, in processing order. -/
def slotEntries (l : List Record) : List (Nat × String × Nat) :=
  l.flatMap recordSlotEntries

/-- One bucket update from one entry (lines 98–110 for a single slot). -/
def applyEntry (m : List (Nat × Bucket)) (e : Nat × String × Nat) : List (Nat × Bucket) :=
  upsert { count := 0, totalMinutes := 0, users := [] } (fun b => bucketUpd b e) e.1 m

/-- The entries of a list that hit bucket key `k`, in order. -/
def entryHits (entries : List (Nat × String × Nat)) (k : Nat) : List (Nat × String × Nat) :=
  entries.filter (fun e => e.1 == k)

/-- Extending an optional bucket by a list of hits: a missing bucket stays
missing only when there are no hits, otherwise the hits are folded into the
fresh (resp. existing) bucket. -/
def extendBucket : Option Bucket → List (Nat × String × Nat) → Option Bucket
  | none, [] => none
  | none, e :: es => some ((e :: es).foldl bucketUpd { count := 0, totalMinutes := 0, users := [] })
  | some b, es => some (es.foldl bucketUpd b)

theorem entryHits_cons (e : Nat × String × Nat) (rest : List (Nat × String × Nat)) (k : Nat) :
    entryHits (e :: rest) k = entryHits [e] k ++ entryHits rest k := by
  by_cases h : (e.1 == k) = true
  · simp [entryHits, h]
  · simp [entryHits, h]

theorem extendBucket_nil (o : Option Bucket) : extendBucket o [] = o := by
  cases o <;> rfl

theorem extendBucket_step (o : Option Bucket) (e : Nat × String × Nat)
    (es : List (Nat × String × Nat)) :
    extendBucket o (e :: es) =
      extendBucket (some (bucketUpd (o.getD { count := 0, totalMinutes := 0, users := [] }) e)) es := by
  cases o <;> rfl

theorem extendBucket_append (o : Option Bucket) (h1 h2 : List (Nat × String × Nat)) :
    extendBucket (extendBucket o h1) h2 = extendBucket o (h1 ++ h2) := by
  induction h1 generalizing o with
  | nil => rw [extendBucket_nil, List.nil_append]
  | cons x xs ih =>
    rw [extendBucket_step, ih, List.cons_append, extendBucket_step]

theorem lookup_applyEntry (m : List (Nat × Bucket)) (e : Nat × String × Nat) (k : Nat) :
    List.lookup k (applyEntry m e) = extendBucket (List.lookup k m) (entryHits [e] k) := by
  unfold applyEntry
  rw [lookup_upsert]
  by_cases hk : k = e.1
  · subst hk
    rw [if_pos rfl]
    have hh : entryHits [e] e.1 = [e] := by
      simp [entryHits]
    rw [hh, extendBucket_step, extendBucket_nil]
  · rw [if_neg hk]
    have hh : entryHits [e] k = [] := by
      have hb : (e.1 == k) = false := beq_eq_false_iff_ne.mpr (fun hc => hk hc.symm)
      simp [entryHits, hb]
    rw [hh, extendBucket_nil]

theorem lookup_foldl_applyEntry (entries : List (Nat × String × Nat)) :
    ∀ (m : List (Nat × Bucket)) (k : Nat),
      List.lookup k (entries.foldl applyEntry m) =
        extendBucket (List.lookup k m) (entryHits entries k) := by
  induction entries with
  | nil =>
    intro m k
    rw [List.foldl_nil, show entryHits [] k = [] from rfl, extendBucket_nil]
  | cons e rest ih =>
    intro m k
    rw [List.foldl_cons, ih, lookup_applyEntry, extendBucket_append, ← entryHits_cons]

theorem hourly_foldl (l : List Record) :
    ∀ st : OccState,
      (l.foldl processRecord st).hourlyOccupancy =
        (slotEntries l).foldl applyEntry st.hourlyOccupancy := by
  induction l with
  | nil => intro st; rfl
  | cons r rest ih =>
    intro st
    rw [List.foldl_cons, ih (processRecord st r),
      show slotEntries (r :: rest) = recordSlotEntries r ++ slotEntries rest from
        List.flatMap_cons r rest recordSlotEntries,
      List.foldl_append]
    congr 1
    rcases hr : r.checkoutField with _ | co
    · simp [processRecord, recordSlotEntries, hr]
    · by_cases hs : r.stayMs = 0
      · simp [processRecord, recordSlotEntries, hr, hs]
      · simp [processRecord, recordSlotEntries, hr, hs]
        rw [List.foldl_map]
        rfl

theorem foldl_bucketUpd (es : List (Nat × String × Nat)) :
    ∀ b : Bucket,
      es.foldl bucketUpd b =
        { count := b.count + es.length
          totalMinutes := b.totalMinutes + (es.map (fun e => e.2.2)).sum
          users := b.users ++ es.map (fun e => (e.2.1, e.2.2)) } := by
  induction es with
  | nil => intro b; simp
  | cons e es ih =>
    intro b
    rw [List.foldl_cons, ih (bucketUpd b e)]
    simp only [bucketUpd, List.length_cons, List.map_cons, List.sum_cons,
      List.cons_append, Bucket.mk.injEq]
    refine ⟨by omega, by omega, ?_⟩
    rw [List.append_assoc]
    rfl

/-- Lines 74–86: a record survives the guards iff its checkout column is
present and its stay time is positive. -/
def validRecord (r : Record) : Bool :=
  r.checkoutField.isSome && !(r.stayMs == 0)

/-- Extending an optional day-stat by a list of records hitting its day. -/
def extendDay : Option DayStat → List Record → Option DayStat
  | none, [] => none
  | none, r :: rs =>
      some ((r :: rs).foldl dayUpd { totalHours := 0, totalSessions := 0, uniqueUsers := ∅ })
  | some s, rs => some (rs.foldl dayUpd s)

theorem extendDay_nil (o : Option DayStat) : extendDay o [] = o := by
  cases o <;> rfl

theorem extendDay_step (o : Option DayStat) (r : Record) (rs : List Record) :
    extendDay o (r :: rs) =
      extendDay (some (dayUpd (o.getD { totalHours := 0, totalSessions := 0, uniqueUsers := ∅ }) r)) rs := by
  cases o <;> rfl

theorem extendDay_append (o : Option DayStat) (h1 h2 : List Record) :
    extendDay (extendDay o h1) h2 = extendDay o (h1 ++ h2) := by
  induction h1 generalizing o with
  | nil => rw [extendDay_nil, List.nil_append]
  | cons x xs ih =>
    rw [extendDay_step, ih, List.cons_append, extendDay_step]

theorem daily_foldl (l : List Record) :
    ∀ st : OccState,
      (l.foldl processRecord st).dailyStats =
        (l.filter validRecord).foldl (fun m r => addDaily r m) st.dailyStats := by
  induction l with
  | nil => intro st; rfl
  | cons r rest ih =>
    intro st
    rw [List.foldl_cons, ih (processRecord st r)]
    rcases hr : r.checkoutField with _ | co
    · have hv : validRecord r = false := by simp [validRecord, hr]
      rw [List.filter_cons_of_neg (by simp [hv])]
      congr 1
      simp [processRecord, hr]
    · by_cases hs : r.stayMs = 0
      · have hv : validRecord r = false := by simp [validRecord, hr, hs]
        rw [List.filter_cons_of_neg (by simp [hv])]
        congr 1
        simp [processRecord, hr, hs]
      · have hv : validRecord r = true := by simp [validRecord, hr, hs]
        rw [List.filter_cons_of_pos hv, List.foldl_cons]
        congr 1
        simp [processRecord, hr, hs]

/-- The valid records of a list whose check-in date has day index `d`, in
processing order. -/
def dayHits (l : List Record) (d : Nat) : List Record :=
  (l.filter validRecord).filter (fun r => r.checkin / msPerDay == d)

theorem lookup_addDaily (m : List (Nat × DayStat)) (r : Record) (d : Nat) :
    List.lookup d (addDaily r m) =
      extendDay (List.lookup d m) ((if r.checkin / msPerDay == d then [r] else [])) := by
  unfold addDaily
  rw [lookup_upsert]
  by_cases hd : d = r.checkin / msPerDay
  · subst hd
    rw [if_pos rfl, if_pos (by simp), extendDay_step, extendDay_nil]
  · rw [if_neg hd, if_neg (by simp; exact fun hc => hd hc.symm), extendDay_nil]

theorem lookup_foldl_addDaily (rs : List Record) :
    ∀ (m : List (Nat × DayStat)) (d : Nat),
      List.lookup d (rs.foldl (fun m r => addDaily r m) m) =
        extendDay (List.lookup d m) (rs.filter (fun r => r.checkin / msPerDay == d)) := by
  induction rs with
  | nil =>
    intro m d
    rw [List.foldl_nil, List.filter_nil, extendDay_nil]
  | cons r rs ih =>
    intro m d
    rw [List.foldl_cons, ih, lookup_addDaily, extendDay_append]
    congr 1
    by_cases hd : (r.checkin / msPerDay == d) = true
    · rw [@List.filter_cons_of_pos Record (fun x => x.checkin / msPerDay == d) r rs hd,
        if_pos hd, List.cons_append, List.nil_append]
    · rw [@List.filter_cons_of_neg Record (fun x => x.checkin / msPerDay == d) r rs hd,
        if_neg hd, List.nil_append]

theorem foldl_dayUpd (rs : List Record) :
    ∀ s : DayStat,
      rs.foldl dayUpd s =
        { totalHours := s.totalHours + (rs.map (fun r => r.stayMs)).sum
          totalSessions := s.totalSessions + rs.length
          uniqueUsers := s.uniqueUsers ∪ (rs.map (fun r => r.name)).toFinset } := by
  induction rs with
  | nil => intro s; simp
  | cons r rs ih =>
    intro s
    rw [List.foldl_cons, ih (dayUpd s r)]
    simp only [dayUpd, List.map_cons, List.sum_cons, List.length_cons,
      List.toFinset_cons, DayStat.mk.injEq]
    refine ⟨by omega, by omega, ?_⟩
    rw [Finset.insert_union, Finset.union_insert]

theorem lookup_map_value {β γ : Type} (g : β → γ) (k : Nat) :
    ∀ m : List (Nat × β),
      List.lookup k (m.map (fun p => (p.1, g p.2))) = (List.lookup k m).map g := by
  intro m
  induction m with
  | nil => rfl
  | cons p rest ih =>
    obtain ⟨a, v⟩ := p
    by_cases h : (k == a) = true
    · simp [List.lookup, h]
    · have hb : (k == a) = false := by
        cases hcc : k == a
        · rfl
        · exact absurd hcc h
      simp [List.lookup, hb, ih]

/-- Buckets that agree on `count` and `totalMinutes` and whose member lists
are permutations of each other. -/
def bucketSimilar (b c : Bucket) : Prop :=
  b.count = c.count ∧ b.totalMinutes = c.totalMinutes ∧ b.users.Perm c.users

theorem extendBucket_perm {h1 h2 : List (Nat × String × Nat)} (hp : h1.Perm h2) :
    Option.Rel bucketSimilar (extendBucket none h1) (extendBucket none h2) := by
  cases h1 with
  | nil =>
    have h2nil : h2 = [] := hp.symm.eq_nil
    subst h2nil
    exact Option.Rel.none
  | cons x xs =>
    cases h2 with
    | nil => exact absurd hp.eq_nil (by simp)
    | cons y ys =>
      refine Option.Rel.some ?_
      rw [foldl_bucketUpd, foldl_bucketUpd]
      refine ⟨?_, ?_, ?_⟩
      · simp [hp.length_eq]
      · have hs := (hp.map (fun e => e.2.2)).sum_eq
        simpa using hs
      · simp only [List.nil_append]
        exact hp.map (fun e => (e.2.1, e.2.2))

theorem extendDay_perm {h1 h2 : List Record} (hp : h1.Perm h2) :
    extendDay none h1 = extendDay none h2 := by
  cases h1 with
  | nil =>
    have h2nil : h2 = [] := hp.symm.eq_nil
    subst h2nil
    rfl
  | cons x xs =>
    cases h2 with
    | nil => exact absurd hp.eq_nil (by simp)
    | cons y ys =>
      show some _ = some _
      rw [foldl_dayUpd, foldl_dayUpd]
      simp only [DayStat.mk.injEq, Option.some.injEq]
      refine ⟨?_, ?_, ?_⟩
      · have hs := (hp.map (fun r => r.stayMs)).sum_eq
        simpa using hs
      · simp [hp.length_eq]
      · have hs := List.toFinset_eq_of_perm _ _ (hp.map (fun r => r.name))
        simpa using hs

theorem run_lookup_bucket (l : List Record) (k : Nat) :
    List.lookup k (calculateHourlyOccupancy l).hourlyOccupancy =
      extendBucket none (entryHits (slotEntries l) k) := by
  show List.lookup k
      ((l.foldl processRecord
        { hourlyOccupancy := [], dailyStats := [], allTimeSlots := [] }).hourlyOccupancy) = _
  rw [hourly_foldl, lookup_foldl_applyEntry]
  rfl

theorem run_lookup_daily (l : List Record) (d : Nat) :
    List.lookup d (calculateHourlyOccupancy l).dailyStats =
      (extendDay none (dayHits l d)).map
        (fun s => ({ totalHours := s.totalHours, totalSessions := s.totalSessions,
                     uniqueUsers := s.uniqueUsers.card } : DayStatOut)) := by
  show List.lookup d
      (((l.foldl processRecord
        { hourlyOccupancy := [], dailyStats := [], allTimeSlots := [] }).dailyStats).map
        (fun p => (p.1,
          ({ totalHours := p.2.totalHours, totalSessions := p.2.totalSessions,
             uniqueUsers := p.2.uniqueUsers.card } : DayStatOut)))) = _
  rw [lookup_map_value
      (fun s : DayStat =>
        ({ totalHours := s.totalHours, totalSessions := s.totalSessions,
           uniqueUsers := s.uniqueUsers.card } : DayStatOut)) d,
    daily_foldl, lookup_foldl_addDaily]
  rfl

/-- C4 (counterexample): two records of different customers in the same clock
hour produce different `hourlyOccupancy` objects under the two processing
orders — the bucket's member list records the two users in processing
order. -/
theorem calculateHourlyOccupancy_order_dependent :
    (calculateHourlyOccupancy
        [{ name := "a", checkin := 0, checkoutField := some 600000, stayMs := 600000 },
         { name := "b", checkin := 60000, checkoutField := some 660000, stayMs := 600000 }]).hourlyOccupancy ≠
    (calculateHourlyOccupancy
        [{ name := "b", checkin := 60000, checkoutField := some 660000, stayMs := 600000 },
         { name := "a", checkin := 0, checkoutField := some 600000, stayMs := 600000 }]).hourlyOccupancy := by
  decide

/-- C4 (amended): for every permutation of the input records,
`calculateHourlyOccupancy` produces the same Buckets up to the order of each
bucket's member list — keywise, counts and total minutes are equal and the
member lists are permutations of each other — and keywise identical final
DailyStats; the member lists (and the objects' key insertion order) follow
processing order, so they are not identical as sequences. -/
theorem calculateHourlyOccupancy_perm_invariant (l₁ l₂ : List Record) (hp : l₁.Perm l₂) :
    (∀ k : Nat, Option.Rel bucketSimilar
        (List.lookup k (calculateHourlyOccupancy l₁).hourlyOccupancy)
        (List.lookup k (calculateHourlyOccupancy l₂).hourlyOccupancy)) ∧
    (∀ d : Nat, List.lookup d (calculateHourlyOccupancy l₁).dailyStats =
        List.lookup d (calculateHourlyOccupancy l₂).dailyStats) := by
  constructor
  · intro k
    rw [run_lookup_bucket, run_lookup_bucket]
    exact extendBucket_perm ((hp.flatMap_right recordSlotEntries).filter _)
  · intro d
    rw [run_lookup_daily, run_lookup_daily]
    exact congrArg _ (extendDay_perm ((hp.filter validRecord).filter _))

/-- Witness for the amended C4 at the two-record swap of the
counterexample. -/
theorem calculateHourlyOccupancy_perm_invariant_witness :
    Option.Rel bucketSimilar
      (List.lookup 0 (calculateHourlyOccupancy
        [{ name := "a", checkin := 0, checkoutField := some 600000, stayMs := 600000 },
         { name := "b", checkin := 60000, checkoutField := some 660000, stayMs := 600000 }]).hourlyOccupancy)
      (List.lookup 0 (calculateHourlyOccupancy
        [{ name := "b", checkin := 60000, checkoutField := some 660000, stayMs := 600000 },
         { name := "a", checkin := 0, checkoutField := some 600000, stayMs := 600000 }]).hourlyOccupancy) :=
  (calculateHourlyOccupancy_perm_invariant _ _
    (List.Perm.swap
      { name := "b", checkin := 60000, checkoutField := some 660000, stayMs := 600000 }
      { name := "a", checkin := 0, checkoutField := some 600000, stayMs := 600000 }
      [])).1 0
